import Mathlib

/-!
Shallow embedding of the eBay label printer's order-deduplication core and
fulfillment pass.

Sources embedded:
* `src/app/orders.py` — `OrderManager`: `_load_seen_orders`, `_save_seen_orders`,
  `mark_order_processed`, `is_order_seen`, and the filtering loop of
  `poll_new_orders`.
* `src/run.py` — `process_orders`: the per-order pipeline
  (dedup check → label → slip → print → mark) with per-order exception
  isolation and the outer exception guard.
* `src/app/packing.py` — `PackingSlipGenerator.validate_order_data` and the
  validation-failure path of `generate_packing_slip`.

External collaborators (eBay API transport, PDF construction, CUPS printing)
are modelled as oracles: functions that may return a failure value (Python
`None` / `False`) or raise (modelled as `Except.error`).
-/

namespace EbayPrinter

/-- Python JSON-like values as produced by `json.load` and by the eBay SDK's
`response.dict()`: `null`, booleans, numbers (integral for our purposes),
strings, arrays and objects (association lists of string keys). -/
inductive Json where
  | null : Json
  | bool (b : Bool) : Json
  | num (n : Int) : Json
  | str (s : String) : Json
  | arr (xs : List Json) : Json
  | obj (kvs : List (String × Json)) : Json

/-- Hashable Python primitives: the values that can live inside a Python
`set` in this program (order identifiers are normally strings, but nothing
in the code enforces that). -/
inductive PyVal where
  | null : PyVal
  | bool (b : Bool) : PyVal
  | num (n : Int) : PyVal
  | str (s : String) : PyVal
deriving DecidableEq

/-- Embed a hashable primitive back into `Json` (what `json.dump` writes). -/
def encodePrim : PyVal → Json
  | .null => .null
  | .bool b => .bool b
  | .num n => .num n
  | .str s => .str s

/-- View a `Json` value as a hashable primitive.  Arrays and objects are
unhashable in Python: membership tests and `set.add` raise `TypeError` on
them, which callers model via the `none` result. -/
def toPrim : Json → Option PyVal
  | .null => some .null
  | .bool b => some (.bool b)
  | .num n => some (.num n)
  | .str s => some (.str s)
  | .arr _ => none
  | .obj _ => none

/-- Python truthiness of a JSON value (`bool(x)`). -/
def truthy : Json → Bool
  | .null => false
  | .bool b => b
  | .num n => decide (n ≠ 0)
  | .str s => !s.isEmpty
  | .arr xs => !xs.isEmpty
  | .obj kvs => !kvs.isEmpty

/-- Truthiness of an optional value: a missing key (`dict.get` returning
`None`) is falsy. -/
def truthyOpt : Option Json → Bool
  | none => false
  | some j => truthy j

/-- An order record as it flows through the pipeline: a Python dict with
string keys (`order.get(...)` field access). -/
abbrev OrderRec := List (String × Json)

/-- `d.get(k)`: first binding of key `k`, if any. -/
def jsonGet (d : List (String × Json)) (k : String) : Option Json :=
  (d.find? (fun p => p.1 == k)).map (fun p => p.2)

/-- `d.get(k, default)`. -/
def jsonGetD (d : List (String × Json)) (k : String) (v : Json) : Json :=
  (jsonGet d k).getD v

/-- `k in d` for a Python dict. -/
def hasKey (d : List (String × Json)) (k : String) : Bool :=
  (jsonGet d k).isSome

/-- Python `x == "lit"` where `x` is an arbitrary JSON value: true exactly
for the equal string (comparison across types is `False`, never an error). -/
def jsonEqStr (j : Json) (s : String) : Bool :=
  match j with
  | .str t => t == s
  | _ => false

/-- Python `set.add` on a set represented as a duplicate-free list in
insertion order: appends only if absent. -/
def pyInsert (v : PyVal) (s : List PyVal) : List PyVal :=
  if v ∈ s then s else s ++ [v]

/-- `set(iterable)`: fold the elements through `pyInsert`. -/
def pyDedup (l : List PyVal) : List PyVal :=
  l.foldl (fun acc v => pyInsert v acc) []

/-- View every element of a JSON array as a hashable primitive;
`none` when some element is unhashable (`TypeError` from `set(...)`). -/
def toPrimList : List Json → Option (List PyVal)
  | [] => some []
  | j :: js =>
    match toPrim j with
    | none => none
    | some v =>
      match toPrimList js with
      | none => none
      | some vs => some (v :: vs)

/-- Python `set(x)` on a JSON value: arrays yield their elements (a
`TypeError` — `none` — if any element is unhashable), strings yield their
characters, objects yield their keys, and other values are not iterable
(`TypeError`, hence `none`). -/
def pySetOfJson : Json → Option (List PyVal)
  | .arr xs => (toPrimList xs).map pyDedup
  | .str s => some (pyDedup (s.toList.map (fun c => .str (String.mk [c]))))
  | .obj kvs => some (pyDedup (kvs.map (fun p => .str p.1)))
  | .null => none
  | .bool _ => none
  | .num _ => none

/-- The backing state file as the store can encounter it: missing, present
but unreadable (`IOError` on open/read), readable but not parseable as JSON
(`json.JSONDecodeError`), or parseable to a JSON value. -/
inductive FileState where
  | missing : FileState
  | unreadable : FileState
  | notJson : FileState
  | jsonVal (j : Json) : FileState

/-- Result of `OrderManager._load_seen_orders`: either a returned set
(with a flag recording whether a warning was logged) or a Python exception
propagating to the caller. -/
inductive LoadResult where
  | ok (seen : List PyVal) (warned : Bool) : LoadResult
  | raised : LoadResult
deriving DecidableEq

/-- `OrderManager._load_seen_orders` (src/app/orders.py:54-63).
Missing file: returns the empty set, no warning.  `IOError` or JSON decode
failure: caught, warning logged, empty set.  A parsed JSON value that is not
an object makes `data.get("seen_order_ids", [])` raise `AttributeError`
(uncaught); an object whose `seen_order_ids` entry is not iterable or holds
unhashable elements makes `set(...)` raise `TypeError` (uncaught). -/
def load_seen_orders : FileState → LoadResult
  | .missing => .ok [] false
  | .unreadable => .ok [] true
  | .notJson => .ok [] true
  | .jsonVal j =>
    match j with
    | .obj kvs =>
      match pySetOfJson ((jsonGet kvs "seen_order_ids").getD (.arr [])) with
      | some s => .ok s false
      | none => .raised
    | _ => .raised

/-- The file content `json.dump({"seen_order_ids": list(seen)}, f)` writes. -/
def encodeSeen (seen : List PyVal) : FileState :=
  .jsonVal (.obj [("seen_order_ids", .arr (seen.map encodePrim))])

/-- `OrderManager._save_seen_orders` (src/app/orders.py:65-71): overwrite the
backing file with the current set; an `IOError` (`persistOk = false`) is
caught and logged as an error, leaving the file as it was.  Returns the new
file state and whether the error branch logged. -/
def save_seen_orders (persistOk : Bool) (seen : List PyVal)
    (file : FileState) : FileState × Bool :=
  if persistOk then (encodeSeen seen, false) else (file, true)

/-- In-memory plus durable state of the seen-order store. -/
structure StoreState where
  seen : List PyVal
  file : FileState

/-- `OrderManager.mark_order_processed` (src/app/orders.py:128-132): insert
into the in-memory set, then persist.  Never raises; the returned flag
records whether the save's error branch logged. -/
def mark_order_processed (persistOk : Bool) (v : PyVal)
    (st : StoreState) : StoreState × Bool :=
  let seen := pyInsert v st.seen
  let fs := save_seen_orders persistOk seen st.file
  (⟨seen, fs.1⟩, fs.2)

/-- `OrderManager.is_order_seen` (src/app/orders.py:134-136). -/
def is_order_seen (v : PyVal) (st : StoreState) : Bool :=
  decide (v ∈ st.seen)

/-- A sequence of later `mark_order_processed` calls (each with its own
persistence outcome), as the rest of the process lifetime can issue them. -/
def runMarks (ms : List (Bool × PyVal)) (st : StoreState) : StoreState :=
  ms.foldl (fun s m => (mark_order_processed m.1 m.2 s).1) st

/-- `mark_order_processed` with persistence succeeding, folded over a list of
string identifiers. -/
def runMarksTrue (ids : List String) (st : StoreState) : StoreState :=
  ids.foldl (fun s id => (mark_order_processed true (.str id) s).1) st

/-- `PackingSlipGenerator.validate_order_data` (src/app/packing.py:319-322):
`all(field in order_data for field in ["order_id", "buyer_address"])`. -/
def validate_order_data (d : OrderRec) : Bool :=
  hasKey d "order_id" && hasKey d "buyer_address"

/-- `PackingSlipGenerator.generate_packing_slip` (src/app/packing.py:37-84):
returns `None` when validation fails; otherwise builds the PDF.  The PDF
construction (directory creation, reportlab build) is an external effect
modelled by the `build` oracle, whose `none` result stands for the caught
`IOError`/`Exception` branches that also return `None`. -/
def generate_packing_slip (build : OrderRec → Option String)
    (d : OrderRec) : Option String :=
  if validate_order_data d then build d else none

/-- Eligibility test of `poll_new_orders` (src/app/orders.py:112-116):
`order.get("OrderStatus", "") == "Completed" and not order.get("ShippedTime")`. -/
def fulfillmentEligible (r : OrderRec) : Bool :=
  jsonEqStr (jsonGetD r "OrderStatus" (.str "")) "Completed" &&
    !truthyOpt (jsonGet r "ShippedTime")

/-- How the polling loop classifies one extracted order
(src/app/orders.py:104-118): the seen check runs first (`continue` on a
match), then the eligibility check.  An unhashable `OrderID` value makes
`order_id in self._seen_orders` raise `TypeError`, which the poll's
`except` clauses do not catch. -/
inductive PollTag where
  | seenSkip : PollTag
  | notEligible : PollTag
  | fwd : PollTag
deriving DecidableEq

/-- Classification of a single order inside `poll_new_orders`. -/
def pollClassify (seen : List PyVal) (r : OrderRec) : Except Unit PollTag :=
  match toPrim (jsonGetD r "OrderID" (.str "")) with
  | none => .error ()
  | some w =>
    if w ∈ seen then .ok .seenSkip
    else if fulfillmentEligible r then .ok .fwd
    else .ok .notEligible

/-- The polling loop over the extracted order list, tagging each record. -/
def pollTagged (seen : List PyVal) : List OrderRec → Except Unit (List (OrderRec × PollTag))
  | [] => .ok []
  | r :: rs =>
    match pollClassify seen r with
    | .error e => .error e
    | .ok t =>
      match pollTagged seen rs with
      | .error e => .error e
      | .ok ts => .ok ((r, t) :: ts)

/-- The records the poll forwards (`new_orders` appended at
src/app/orders.py:117). -/
def forwarded (ts : List (OrderRec × PollTag)) : List OrderRec :=
  (ts.filter (fun p => decide (p.2 = .fwd))).map (fun p => p.1)

/-- Outcome of the eBay `GetOrders` transport as `poll_new_orders` sees it:
client never initialized (src/app/orders.py:83-85), a handled exception
from the API call (`EbayConnectionError`/`OSError`/`ValueError`/`KeyError`,
lines 120-123), or a successfully extracted list of order dicts. -/
inductive ApiResult where
  | uninit : ApiResult
  | handledError : ApiResult
  | response (raws : List OrderRec) : ApiResult

/-- `OrderManager.poll_new_orders` (src/app/orders.py:73-126): empty list
when the client is uninitialized or a handled exception interrupts the call;
otherwise the forwarded sublist of the extracted orders.  An `Except.error`
is a `TypeError` escaping the poll. -/
def poll_new_orders (api : ApiResult) (seen : List PyVal) :
    Except Unit (List OrderRec) :=
  match api with
  | .uninit => .ok []
  | .handledError => .ok []
  | .response raws =>
    match pollTagged seen raws with
    | .error e => .error e
    | .ok ts => .ok (forwarded ts)

/-- Per-order pipeline outcome, the spec's vocabulary (§3 Pipeline Outcome).
`skippedAlreadySeen` covers both skip sites in the source: the poll-stage
drop (src/app/orders.py:107-109) and the loop-stage skip (src/run.py:96-98).
`filteredIneligible` is a poll-stage drop by the status check;
`errored` is the per-order `except Exception` branch (src/run.py:122-124). -/
inductive Outcome where
  | processed : Outcome
  | skippedAlreadySeen : Outcome
  | filteredIneligible : Outcome
  | failedLabel : Outcome
  | failedSlip : Outcome
  | failedPrint : Outcome
  | errored : Outcome
deriving DecidableEq

/-- What a pass records for one offered order: its outcome, whether the
Label Acquirer (`buy_shipping_label`) was invoked for it, and the identifier
`mark_order_processed` was called with, if any. -/
structure OrderResult where
  outcome : Outcome
  labelInvoked : Bool
  marked : Option PyVal
deriving DecidableEq

/-- External collaborators of one pass, as oracles.  `Except.error` models a
raised exception, the `Option`/`Bool` payloads the source's `None`/`False`
failure returns.  `persistOk` is whether state-file writes succeed. -/
structure Env where
  buy_shipping_label : OrderRec → Except Unit (Option (List (String × Json)))
  render_packing_slip : OrderRec → Except Unit (Option String)
  print_documents : List String → Except Unit Bool
  persistOk : Bool

/-- `Path(x)` in `run.py:113` accepts a string and raises `TypeError`
otherwise. -/
def pathStr : Json → Option String
  | .str s => some s
  | _ => none

/-- The per-order body of `process_orders` (src/run.py:90-124): dedup check,
label purchase, slip generation, `Path(label_info['pdf_path'])`, printing,
and marking on print success.  Every raise inside the body is caught by the
per-order `except Exception` (outcome `errored`); the function is total. -/
def processOrder (env : Env) (st : StoreState) (r : OrderRec) :
    StoreState × OrderResult :=
  match toPrim (jsonGetD r "order_id" (.str "unknown")) with
  | none => (st, ⟨.errored, false, none⟩)
  | some v =>
    if is_order_seen v st then (st, ⟨.skippedAlreadySeen, false, none⟩)
    else
      match env.buy_shipping_label r with
      | .error _ => (st, ⟨.errored, true, none⟩)
      | .ok none => (st, ⟨.failedLabel, true, none⟩)
      | .ok (some label_info) =>
        match env.render_packing_slip r with
        | .error _ => (st, ⟨.errored, true, none⟩)
        | .ok none => (st, ⟨.failedSlip, true, none⟩)
        | .ok (some slip_path) =>
          match jsonGet label_info "pdf_path" with
          | none => (st, ⟨.errored, true, none⟩)
          | some pj =>
            match pathStr pj with
            | none => (st, ⟨.errored, true, none⟩)
            | some label_path =>
              match env.print_documents [label_path, slip_path] with
              | .error _ => (st, ⟨.errored, true, none⟩)
              | .ok false => (st, ⟨.failedPrint, true, none⟩)
              | .ok true =>
                ((mark_order_processed env.persistOk v st).1,
                  ⟨.processed, true, some v⟩)

/-- One pass over the tagged orders: poll-stage drops record their outcome
without touching state; forwarded orders run `processOrder` with the state
threaded in source order, exactly as `run.py`'s loop does (the tags were
computed up front from the pre-pass seen set, the loop re-checks the live
set). -/
def runTagged (env : Env) (st : StoreState) :
    List (OrderRec × PollTag) → StoreState × List OrderResult
  | [] => (st, [])
  | (r, t) :: ts =>
    match t with
    | .seenSkip =>
      let rest := runTagged env st ts
      (rest.1, ⟨.skippedAlreadySeen, false, none⟩ :: rest.2)
    | .notEligible =>
      let rest := runTagged env st ts
      (rest.1, ⟨.filteredIneligible, false, none⟩ :: rest.2)
    | .fwd =>
      let one := processOrder env st r
      let rest := runTagged env one.1 ts
      (rest.1, one.2 :: rest.2)

/-- `process_orders` (src/run.py:76-127) for one pass, given the transport
outcome: poll, then the per-order loop.  A `TypeError` escaping the poll is
caught by the outer `except Exception` (line 126), so the pass ends with no
orders processed and the state unchanged. -/
def process_orders (env : Env) (st : StoreState) (api : ApiResult) :
    StoreState × List OrderResult :=
  match api with
  | .uninit => (st, [])
  | .handledError => (st, [])
  | .response raws =>
    match pollTagged st.seen raws with
    | .error _ => (st, [])
    | .ok ts => runTagged env st ts

/-- The orders of a pass for which the Label Acquirer was invoked, read off
the per-order results. -/
def labelCalls : List OrderRec → List OrderResult → List OrderRec
  | r :: rs, res :: ress =>
    if res.labelInvoked then r :: labelCalls rs ress else labelCalls rs ress
  | _, _ => []

/-- Whether the state file's `seen_order_ids` array contains identifier `v`
(in the shape `_save_seen_orders` writes). -/
def fileContainsId (v : PyVal) : FileState → Bool
  | .jsonVal (.obj kvs) =>
    match jsonGet kvs "seen_order_ids" with
    | some (.arr l) => l.any (fun j => decide (toPrim j = some v))
    | _ => false
  | _ => false

/-! Concrete scenario data, used to instantiate the theorems below on
closed inputs. -/

/-- A fresh store: no orders seen, no state file yet. -/
def emptyStore : StoreState := ⟨[], .missing⟩

/-- The spec's happy-path order "A-1", carrying both the marketplace-shaped
keys the poll reads and the snake_case keys the pipeline reads. -/
def orderA : OrderRec :=
  [("order_id", .str "A-1"), ("OrderID", .str "A-1"),
   ("OrderStatus", .str "Completed"),
   ("buyer_address", .obj [("name", .str "Buyer")])]

/-- Collaborators for the happy path: label, slip and print all succeed,
persistence succeeds. -/
def happyEnv : Env :=
  { buy_shipping_label := fun _ => .ok (some [("pdf_path", .str "/labels/A-1.pdf")])
    render_packing_slip := fun _ => .ok (some "/slips/A-1.pdf")
    print_documents := fun _ => .ok true
    persistOk := true }

/-- The recorded result of the happy path for "A-1". -/
def happyRes : OrderResult := ⟨.processed, true, some (.str "A-1")⟩

/-- An order whose print will fail under `dupEnv` (its slip renders to
"S1"). -/
def printFailOrder : OrderRec :=
  [("order_id", .str "X"), ("OrderID", .str "X"),
   ("OrderStatus", .str "Completed"), ("tag", .num 1)]

/-- A distinct order record carrying the same identifier "X" whose print
will succeed under `dupEnv` (its slip renders to "S2"). -/
def dupOrder : OrderRec :=
  [("order_id", .str "X"), ("OrderID", .str "X"),
   ("OrderStatus", .str "Completed"), ("tag", .num 2)]

/-- Collaborators under which printing succeeds exactly when the packing
slip "S2" is among the documents. -/
def dupEnv : Env :=
  { buy_shipping_label := fun _ => .ok (some [("pdf_path", .str "L.pdf")])
    render_packing_slip := fun r =>
      .ok (some (match jsonGet r "tag" with | some (.num 1) => "S1" | _ => "S2"))
    print_documents := fun ps => .ok (ps.contains "S2")
    persistOk := true }

/-- Collaborators whose label and slip succeed but whose print always
reports failure. -/
def printFailEnv : Env :=
  { buy_shipping_label := fun _ => .ok (some [("pdf_path", .str "L.pdf")])
    render_packing_slip := fun _ => .ok (some "S.pdf")
    print_documents := fun _ => .ok false
    persistOk := true }

/-- A marketplace-shaped record: `OrderID`/`ShippingAddress` keys instead of
the `order_id`/`buyer_address` keys the packing-slip generator requires. -/
def marketplaceShaped : OrderRec :=
  [("OrderID", .str "A-1"), ("ShippingAddress", .obj [("Name", .str "B")])]

/-- A PDF builder that always succeeds. -/
def alwaysBuild : OrderRec → Option String := fun _ => some "slip.pdf"

/-! ### Seen-order store lemmas -/

theorem mem_pyInsert_self (v : PyVal) (s : List PyVal) : v ∈ pyInsert v s := by
  unfold pyInsert
  split
  · assumption
  · simp

theorem mem_pyInsert_of_mem (u v : PyVal) (s : List PyVal) (h : u ∈ s) :
    u ∈ pyInsert v s := by
  unfold pyInsert
  split
  · exact h
  · simp [h]

theorem mem_pyInsert_iff (u v : PyVal) (s : List PyVal) :
    u ∈ pyInsert v s ↔ u ∈ s ∨ u = v := by
  unfold pyInsert
  split
  · rename_i hv
    constructor
    · exact Or.inl
    · rintro (h | rfl)
      · exact h
      · exact hv
  · simp

theorem pyInsert_idem (v : PyVal) (s : List PyVal) :
    pyInsert v (pyInsert v s) = pyInsert v s := by
  have h := mem_pyInsert_self v s
  unfold pyInsert
  unfold pyInsert at h
  rw [if_pos h]

theorem pyInsert_nodup (v : PyVal) (s : List PyVal) (h : s.Nodup) :
    (pyInsert v s).Nodup := by
  unfold pyInsert
  split
  · exact h
  · rename_i hv
    simp [List.nodup_append, h, hv]

theorem toPrim_encodePrim (v : PyVal) : toPrim (encodePrim v) = some v := by
  cases v <;> rfl

theorem mark_mem_self (ok : Bool) (v : PyVal) (st : StoreState) :
    v ∈ (mark_order_processed ok v st).1.seen :=
  mem_pyInsert_self v st.seen

theorem mark_seen_mono (ok : Bool) (u v : PyVal) (st : StoreState)
    (h : u ∈ st.seen) : u ∈ (mark_order_processed ok v st).1.seen :=
  mem_pyInsert_of_mem u v st.seen h

theorem fileContainsId_encodeSeen (u : PyVal) (l : List PyVal) :
    fileContainsId u (encodeSeen l) = true ↔ u ∈ l := by
  have h1 : fileContainsId u (encodeSeen l)
      = (l.map encodePrim).any (fun j => decide (toPrim j = some u)) := rfl
  rw [h1, List.any_eq_true]
  constructor
  · rintro ⟨j, hj, hdec⟩
    rcases List.mem_map.mp hj with ⟨x, hx, rfl⟩
    rw [toPrim_encodePrim] at hdec
    have hx' : x = u := by simpa using hdec
    exact hx' ▸ hx
  · intro hu
    refine ⟨encodePrim u, List.mem_map.mpr ⟨u, hu, rfl⟩, ?_⟩
    simp [toPrim_encodePrim]

theorem mark_inv (ok : Bool) (u v : PyVal) (st : StoreState)
    (h1 : u ∈ st.seen) (h2 : fileContainsId u st.file = true) :
    u ∈ (mark_order_processed ok v st).1.seen ∧
      fileContainsId u (mark_order_processed ok v st).1.file = true := by
  refine ⟨mark_seen_mono ok u v st h1, ?_⟩
  unfold mark_order_processed save_seen_orders
  cases ok
  · simpa using h2
  · simpa using (fileContainsId_encodeSeen u (pyInsert v st.seen)).2
      (mem_pyInsert_of_mem u v st.seen h1)

theorem runMarks_seen_mono (ms : List (Bool × PyVal)) (u : PyVal)
    (st : StoreState) (h : u ∈ st.seen) : u ∈ (runMarks ms st).seen := by
  induction ms generalizing st with
  | nil => exact h
  | cons m ms ih => exact ih _ (mark_seen_mono m.1 u m.2 st h)

theorem foldl_pyInsert_of_nodup :
    ∀ (l acc : List PyVal), (acc ++ l).Nodup →
      l.foldl (fun a v => pyInsert v a) acc = acc ++ l
  | [], acc, _ => by simp
  | v :: l, acc, h => by
    have hv : v ∉ acc := fun hmem =>
      (List.nodup_append.mp h).2.2 hmem (List.mem_cons_self v l)
    have h' : (acc ++ [v] ++ l).Nodup := by
      simpa [List.append_assoc] using h
    rw [List.foldl_cons,
      show pyInsert v acc = acc ++ [v] from by unfold pyInsert; rw [if_neg hv],
      foldl_pyInsert_of_nodup l (acc ++ [v]) h']
    simp

theorem pyDedup_of_nodup (l : List PyVal) (h : l.Nodup) : pyDedup l = l := by
  simpa [pyDedup] using foldl_pyInsert_of_nodup l [] (by simpa using h)

theorem toPrimList_encode (l : List PyVal) :
    toPrimList (l.map encodePrim) = some l := by
  induction l with
  | nil => rfl
  | cons v l ih => simp [toPrimList, toPrim_encodePrim, ih]

theorem load_encodeSeen (l : List PyVal) (h : l.Nodup) :
    load_seen_orders (encodeSeen l) = .ok l false := by
  simp [load_seen_orders, encodeSeen, jsonGet, List.find?, pySetOfJson,
    toPrimList_encode, pyDedup_of_nodup l h]

theorem mark_nodup (ok : Bool) (v : PyVal) (st : StoreState)
    (h : st.seen.Nodup) : (mark_order_processed ok v st).1.seen.Nodup :=
  pyInsert_nodup v st.seen h

theorem runMarksTrue_cons (id : String) (ids : List String) (st : StoreState) :
    runMarksTrue (id :: ids) st =
      runMarksTrue ids (mark_order_processed true (.str id) st).1 := rfl

theorem runMarksTrue_nodup (ids : List String) (st : StoreState)
    (h : st.seen.Nodup) : (runMarksTrue ids st).seen.Nodup := by
  induction ids generalizing st with
  | nil => exact h
  | cons id ids ih =>
    rw [runMarksTrue_cons]
    exact ih _ (mark_nodup true (.str id) st h)

theorem runMarksTrue_file (ids : List String) (st : StoreState) (h : ids ≠ []) :
    (runMarksTrue ids st).file = encodeSeen (runMarksTrue ids st).seen := by
  induction ids generalizing st with
  | nil => exact absurd rfl h
  | cons id ids ih =>
    cases ids with
    | nil =>
      simp [runMarksTrue, mark_order_processed, save_seen_orders]
    | cons id2 ids2 =>
      rw [runMarksTrue_cons]
      exact ih _ (by simp)

/-! ### Orchestrator lemmas -/

theorem is_order_seen_iff (v : PyVal) (st : StoreState) :
    is_order_seen v st = true ↔ v ∈ st.seen := by
  simp [is_order_seen]

theorem processOrder_cases (env : Env) (st : StoreState) (r : OrderRec) :
    (∃ res, processOrder env st r = (st, res) ∧ res.marked = none ∧
      res.outcome ≠ .processed) ∨
    (∃ v, toPrim (jsonGetD r "order_id" (.str "unknown")) = some v ∧
      v ∉ st.seen ∧
      processOrder env st r =
        ((mark_order_processed env.persistOk v st).1,
          ⟨.processed, true, some v⟩)) := by
  rcases h0 : toPrim (jsonGetD r "order_id" (.str "unknown")) with _ | v
  · exact Or.inl ⟨⟨.errored, false, none⟩, by simp [processOrder, h0], rfl, by decide⟩
  · by_cases hseen : is_order_seen v st
    · exact Or.inl ⟨⟨.skippedAlreadySeen, false, none⟩,
        by simp [processOrder, h0, hseen], rfl, by decide⟩
    · rcases hl : env.buy_shipping_label r with e | (_ | label_info)
      · exact Or.inl ⟨⟨.errored, true, none⟩,
          by simp [processOrder, h0, hseen, hl], rfl, by decide⟩
      · exact Or.inl ⟨⟨.failedLabel, true, none⟩,
          by simp [processOrder, h0, hseen, hl], rfl, by decide⟩
      · rcases hs : env.render_packing_slip r with e | (_ | slip_path)
        · exact Or.inl ⟨⟨.errored, true, none⟩,
            by simp [processOrder, h0, hseen, hl, hs], rfl, by decide⟩
        · exact Or.inl ⟨⟨.failedSlip, true, none⟩,
            by simp [processOrder, h0, hseen, hl, hs], rfl, by decide⟩
        · rcases hp : jsonGet label_info "pdf_path" with _ | pj
          · exact Or.inl ⟨⟨.errored, true, none⟩,
              by simp [processOrder, h0, hseen, hl, hs, hp], rfl, by decide⟩
          · rcases hq : pathStr pj with _ | label_path
            · exact Or.inl ⟨⟨.errored, true, none⟩,
                by simp [processOrder, h0, hseen, hl, hs, hp, hq], rfl, by decide⟩
            · rcases hpr : env.print_documents [label_path, slip_path] with e | b
              · exact Or.inl ⟨⟨.errored, true, none⟩,
                  by simp [processOrder, h0, hseen, hl, hs, hp, hq, hpr], rfl,
                  by decide⟩
              · cases b
                · exact Or.inl ⟨⟨.failedPrint, true, none⟩,
                    by simp [processOrder, h0, hseen, hl, hs, hp, hq, hpr], rfl,
                    by decide⟩
                · refine Or.inr ⟨v, ?_, ?_, ?_⟩
                  · exact h0 ▸ rfl
                  · simpa [is_order_seen_iff] using hseen
                  · simp [processOrder, h0, hseen, hl, hs, hp, hq, hpr]

theorem processOrder_skip (env : Env) (st : StoreState) (r : OrderRec)
    (v : PyVal) (h0 : toPrim (jsonGetD r "order_id" (.str "unknown")) = some v)
    (hv : v ∈ st.seen) :
    processOrder env st r = (st, ⟨.skippedAlreadySeen, false, none⟩) := by
  have hs : is_order_seen v st = true := (is_order_seen_iff v st).mpr hv
  simp [processOrder, h0, hs]

theorem processOrder_seen_mono (env : Env) (st : StoreState) (r : OrderRec)
    (u : PyVal) (h : u ∈ st.seen) : u ∈ (processOrder env st r).1.seen := by
  rcases processOrder_cases env st r with ⟨res, heq, _, _⟩ | ⟨v, _, _, heq⟩
  · rw [heq]; exact h
  · rw [heq]; exact mark_seen_mono env.persistOk u v st h

theorem processOrder_inv (env : Env) (st : StoreState) (r : OrderRec)
    (u : PyVal) (h1 : u ∈ st.seen) (h2 : fileContainsId u st.file = true) :
    u ∈ (processOrder env st r).1.seen ∧
      fileContainsId u (processOrder env st r).1.file = true := by
  rcases processOrder_cases env st r with ⟨res, heq, _, _⟩ | ⟨v, _, _, heq⟩
  · rw [heq]; exact ⟨h1, h2⟩
  · rw [heq]; exact mark_inv env.persistOk u v st h1 h2

theorem processOrder_growth (env : Env) (st : StoreState) (r : OrderRec)
    (u : PyVal) (h : u ∈ (processOrder env st r).1.seen) :
    u ∈ st.seen ∨ (processOrder env st r).2.marked = some u := by
  rcases processOrder_cases env st r with ⟨res, heq, _, _⟩ | ⟨v, _, _, heq⟩
  · rw [heq] at h; exact Or.inl h
  · rw [heq] at h ⊢
    rcases (mem_pyInsert_iff u v st.seen).mp h with h' | rfl
    · exact Or.inl h'
    · exact Or.inr rfl

theorem runTagged_nil (env : Env) (st : StoreState) :
    runTagged env st [] = (st, []) := rfl

theorem runTagged_seenSkip (env : Env) (st : StoreState) (r : OrderRec)
    (ts : List (OrderRec × PollTag)) :
    runTagged env st ((r, .seenSkip) :: ts) =
      ((runTagged env st ts).1,
        ⟨.skippedAlreadySeen, false, none⟩ :: (runTagged env st ts).2) := rfl

theorem runTagged_notEligible (env : Env) (st : StoreState) (r : OrderRec)
    (ts : List (OrderRec × PollTag)) :
    runTagged env st ((r, .notEligible) :: ts) =
      ((runTagged env st ts).1,
        ⟨.filteredIneligible, false, none⟩ :: (runTagged env st ts).2) := rfl

theorem runTagged_fwd (env : Env) (st : StoreState) (r : OrderRec)
    (ts : List (OrderRec × PollTag)) :
    runTagged env st ((r, .fwd) :: ts) =
      ((runTagged env (processOrder env st r).1 ts).1,
        (processOrder env st r).2 ::
          (runTagged env (processOrder env st r).1 ts).2) := rfl

theorem runTagged_length (env : Env) :
    ∀ (ts : List (OrderRec × PollTag)) (st : StoreState),
      (runTagged env st ts).2.length = ts.length
  | [], _ => rfl
  | (r, t) :: ts, st => by
    cases t
    · simpa [runTagged_seenSkip] using runTagged_length env ts st
    · simpa [runTagged_notEligible] using runTagged_length env ts st
    · simpa [runTagged_fwd] using
        runTagged_length env ts (processOrder env st r).1

theorem runTagged_seen_mono (env : Env) :
    ∀ (ts : List (OrderRec × PollTag)) (st : StoreState) (u : PyVal),
      u ∈ st.seen → u ∈ (runTagged env st ts).1.seen
  | [], _, _, h => h
  | (r, t) :: ts, st, u, h => by
    cases t
    · simpa [runTagged_seenSkip] using runTagged_seen_mono env ts st u h
    · simpa [runTagged_notEligible] using runTagged_seen_mono env ts st u h
    · simpa [runTagged_fwd] using
        runTagged_seen_mono env ts (processOrder env st r).1 u
          (processOrder_seen_mono env st r u h)

theorem runTagged_inv (env : Env) :
    ∀ (ts : List (OrderRec × PollTag)) (st : StoreState) (u : PyVal),
      u ∈ st.seen → fileContainsId u st.file = true →
      u ∈ (runTagged env st ts).1.seen ∧
        fileContainsId u (runTagged env st ts).1.file = true
  | [], _, _, h1, h2 => ⟨h1, h2⟩
  | (r, t) :: ts, st, u, h1, h2 => by
    cases t
    · simpa [runTagged_seenSkip] using runTagged_inv env ts st u h1 h2
    · simpa [runTagged_notEligible] using runTagged_inv env ts st u h1 h2
    · have h' := processOrder_inv env st r u h1 h2
      simpa [runTagged_fwd] using
        runTagged_inv env ts (processOrder env st r).1 u h'.1 h'.2

theorem runTagged_growth (env : Env) :
    ∀ (ts : List (OrderRec × PollTag)) (st : StoreState) (u : PyVal),
      u ∈ (runTagged env st ts).1.seen →
      u ∈ st.seen ∨
        ∃ (j : ℕ) (res : OrderResult), (runTagged env st ts).2[j]? = some res ∧
          res.marked = some u
  | [], _, _, h => Or.inl h
  | (r, t) :: ts, st, u, h => by
    cases t
    · rcases runTagged_growth env ts st u (by simpa [runTagged_seenSkip] using h)
        with h' | ⟨j, res, hj, hm⟩
      · exact Or.inl h'
      · refine Or.inr ⟨j + 1, res, ?_, hm⟩
        rw [runTagged_seenSkip]
        simpa using hj
    · rcases runTagged_growth env ts st u
          (by simpa [runTagged_notEligible] using h)
        with h' | ⟨j, res, hj, hm⟩
      · exact Or.inl h'
      · refine Or.inr ⟨j + 1, res, ?_, hm⟩
        rw [runTagged_notEligible]
        simpa using hj
    · rcases runTagged_growth env ts (processOrder env st r).1 u
          (by simpa [runTagged_fwd] using h)
        with h' | ⟨j, res, hj, hm⟩
      · rcases processOrder_growth env st r u h' with h'' | h''
        · exact Or.inl h''
        · refine Or.inr ⟨0, (processOrder env st r).2, ?_, h''⟩
          rw [runTagged_fwd]
          simp
      · refine Or.inr ⟨j + 1, res, ?_, hm⟩
        rw [runTagged_fwd]
        simpa using hj

theorem mark_file_self (v : PyVal) (st : StoreState) :
    fileContainsId v (mark_order_processed true v st).1.file = true :=
  (fileContainsId_encodeSeen v (pyInsert v st.seen)).2 (mem_pyInsert_self v st.seen)

theorem runTagged_get_processed (env : Env) :
    ∀ (ts : List (OrderRec × PollTag)) (st : StoreState) (i : ℕ)
      (r : OrderRec) (t : PollTag) (res : OrderResult),
      ts[i]? = some (r, t) →
      (runTagged env st ts).2[i]? = some res →
      res.outcome = .processed →
      t = .fwd ∧
        ∃ v, toPrim (jsonGetD r "order_id" (.str "unknown")) = some v ∧
          res.marked = some v ∧ v ∈ (runTagged env st ts).1.seen ∧
          (env.persistOk = true →
            fileContainsId v (runTagged env st ts).1.file = true)
  | [], _, i, _, _, _, hts, _, _ => by simp at hts
  | (r', t') :: ts, st, 0, r, t, res, hts, hres, hoc => by
    simp at hts
    obtain ⟨rfl, rfl⟩ := hts
    cases t' with
    | seenSkip =>
      rw [runTagged_seenSkip] at hres
      simp at hres
      rw [← hres] at hoc
      simp at hoc
    | notEligible =>
      rw [runTagged_notEligible] at hres
      simp at hres
      rw [← hres] at hoc
      simp at hoc
    | fwd =>
      rw [runTagged_fwd] at hres ⊢
      simp at hres
      rcases processOrder_cases env st r' with ⟨res', heq, _, hne⟩ |
        ⟨v, hv, _, heq⟩
      · rw [heq] at hres
        rw [← hres] at hoc
        exact absurd hoc hne
      · rw [heq] at hres ⊢
        refine ⟨rfl, v, hv, ?_, ?_, ?_⟩
        · rw [← hres]
        · exact runTagged_seen_mono env ts _ v
            (mark_mem_self env.persistOk v st)
        · intro hok
          rw [hok] at heq ⊢
          exact (runTagged_inv env ts _ v (mark_mem_self true v st)
            (mark_file_self v st)).2
  | (r', t') :: ts, st, i + 1, r, t, res, hts, hres, hoc => by
    simp at hts
    cases t' with
    | seenSkip =>
      rw [runTagged_seenSkip] at hres ⊢
      simp at hres ⊢
      exact runTagged_get_processed env ts st i r t res hts hres hoc
    | notEligible =>
      rw [runTagged_notEligible] at hres ⊢
      simp at hres ⊢
      exact runTagged_get_processed env ts st i r t res hts hres hoc
    | fwd =>
      rw [runTagged_fwd] at hres ⊢
      simp at hres ⊢
      exact runTagged_get_processed env ts (processOrder env st r').1 i r t res
        hts hres hoc

theorem runTagged_get_skip (env : Env) :
    ∀ (ts : List (OrderRec × PollTag)) (st : StoreState) (j : ℕ)
      (r : OrderRec) (t : PollTag) (v : PyVal),
      toPrim (jsonGetD r "order_id" (.str "unknown")) = some v →
      v ∈ st.seen →
      ts[j]? = some (r, t) →
      t ≠ .notEligible →
      (runTagged env st ts).2[j]? = some ⟨.skippedAlreadySeen, false, none⟩
  | [], _, j, _, _, _, _, _, hts, _ => by simp at hts
  | (r', t') :: ts, st, 0, r, t, v, hv, hseen, hts, ht => by
    simp at hts
    obtain ⟨rfl, rfl⟩ := hts
    cases t' with
    | seenSkip => rw [runTagged_seenSkip]; simp
    | notEligible => exact absurd rfl ht
    | fwd =>
      rw [runTagged_fwd, processOrder_skip env st r' v hv hseen]
      simp
  | (r', t') :: ts, st, j + 1, r, t, v, hv, hseen, hts, ht => by
    simp at hts
    cases t' with
    | seenSkip =>
      rw [runTagged_seenSkip]
      simpa using runTagged_get_skip env ts st j r t v hv hseen hts ht
    | notEligible =>
      rw [runTagged_notEligible]
      simpa using runTagged_get_skip env ts st j r t v hv hseen hts ht
    | fwd =>
      rw [runTagged_fwd]
      simpa using runTagged_get_skip env ts (processOrder env st r').1 j r t v
        hv (processOrder_seen_mono env st r' v hseen) hts ht

theorem runTagged_marked_none (env : Env) :
    ∀ (ts : List (OrderRec × PollTag)) (st : StoreState) (i : ℕ)
      (res : OrderResult),
      (runTagged env st ts).2[i]? = some res →
      res.outcome ≠ .processed →
      res.marked = none
  | [], _, i, _, hres, _ => by simp [runTagged_nil] at hres
  | (r', t') :: ts, st, 0, res, hres, hoc => by
    cases t' with
    | seenSkip =>
      rw [runTagged_seenSkip] at hres
      simp at hres
      rw [← hres]
    | notEligible =>
      rw [runTagged_notEligible] at hres
      simp at hres
      rw [← hres]
    | fwd =>
      rw [runTagged_fwd] at hres
      simp at hres
      rcases processOrder_cases env st r' with ⟨res', heq, hm, _⟩ |
        ⟨v, _, _, heq⟩
      · rw [heq] at hres
        rw [← hres]
        exact hm
      · rw [heq] at hres
        rw [← hres] at hoc
        simp at hoc
  | (r', t') :: ts, st, i + 1, res, hres, hoc => by
    cases t' with
    | seenSkip =>
      rw [runTagged_seenSkip] at hres
      simp at hres
      exact runTagged_marked_none env ts st i res hres hoc
    | notEligible =>
      rw [runTagged_notEligible] at hres
      simp at hres
      exact runTagged_marked_none env ts st i res hres hoc
    | fwd =>
      rw [runTagged_fwd] at hres
      simp at hres
      exact runTagged_marked_none env ts (processOrder env st r').1 i res hres
        hoc

theorem not_mem_labelCalls :
    ∀ (rs : List OrderRec) (res : List OrderResult) (r : OrderRec),
      (∀ (j : ℕ) (x : OrderResult), rs[j]? = some r → res[j]? = some x →
        x.labelInvoked = false) →
      r ∉ labelCalls rs res
  | [], res, r, _ => by simp [labelCalls]
  | r' :: rs, [], r, _ => by simp [labelCalls]
  | r' :: rs, x :: res, r, h => by
    rw [labelCalls]
    split
    · rename_i hinv
      intro hmem
      rcases List.mem_cons.mp hmem with rfl | hmem'
      · have := h 0 x (by simp) (by simp)
        rw [hinv] at this
        simp at this
      · exact not_mem_labelCalls rs res r
          (fun j xx hj hx => h (j + 1) xx (by simpa using hj)
            (by simpa using hx)) hmem'
    · exact not_mem_labelCalls rs res r
        (fun j xx hj hx => h (j + 1) xx (by simpa using hj)
          (by simpa using hx))

/-! ### Poll lemmas -/

theorem process_orders_response (env : Env) (st : StoreState)
    (raws : List OrderRec) (ts : List (OrderRec × PollTag))
    (h : pollTagged st.seen raws = .ok ts) :
    process_orders env st (.response raws) = runTagged env st ts := by
  simp [process_orders, h]

theorem pollTagged_of_raw (seen : List PyVal) :
    ∀ (raws : List OrderRec) (ts : List (OrderRec × PollTag)) (i : ℕ)
      (r : OrderRec),
      pollTagged seen raws = .ok ts → raws[i]? = some r →
      ∃ t, ts[i]? = some (r, t) ∧ pollClassify seen r = .ok t
  | [], _, i, _, _, hr => by simp at hr
  | r' :: raws, ts, i, r, h, hr => by
    rcases hc : pollClassify seen r' with e | t'
    · rw [pollTagged, hc] at h
      simp at h
    · rcases hrest : pollTagged seen raws with e | ts'
      · rw [pollTagged, hc, hrest] at h
        simp at h
      · rw [pollTagged, hc, hrest] at h
        simp at h
        subst h
        cases i with
        | zero =>
          simp at hr
          subst hr
          exact ⟨t', by simp, hc⟩
        | succ i =>
          simp at hr ⊢
          exact pollTagged_of_raw seen raws ts' i r hrest hr

theorem pollTagged_mem_classify (seen : List PyVal) :
    ∀ (raws : List OrderRec) (ts : List (OrderRec × PollTag)),
      pollTagged seen raws = .ok ts →
      ∀ (r : OrderRec) (t : PollTag), (r, t) ∈ ts →
        pollClassify seen r = .ok t
  | [], ts, h, r, t, hm => by
    rw [pollTagged] at h
    simp at h
    subst h
    simp at hm
  | r' :: raws, ts, h, r, t, hm => by
    rcases hc : pollClassify seen r' with e | t'
    · rw [pollTagged, hc] at h
      simp at h
    · rcases hrest : pollTagged seen raws with e | ts'
      · rw [pollTagged, hc, hrest] at h
        simp at h
      · rw [pollTagged, hc, hrest] at h
        simp at h
        subst h
        rcases List.mem_cons.mp hm with heq | hm'
        · obtain ⟨rfl, rfl⟩ := Prod.mk.injEq .. ▸ heq
          exact hc
        · exact pollTagged_mem_classify seen raws ts' hrest r t hm'

theorem mem_forwarded (r : OrderRec) (ts : List (OrderRec × PollTag)) :
    r ∈ forwarded ts ↔ (r, PollTag.fwd) ∈ ts := by
  constructor
  · intro h
    rcases List.mem_map.mp h with ⟨⟨a, b⟩, hm, heq⟩
    have hb := (List.mem_filter.mp hm).2
    simp at hb
    simp at heq
    subst heq
    subst hb
    exact (List.mem_filter.mp hm).1
  · intro h
    exact List.mem_map.mpr ⟨(r, .fwd), List.mem_filter.mpr ⟨h, by simp⟩, rfl⟩

theorem pollClassify_fwd (seen : List PyVal) (r : OrderRec)
    (h : pollClassify seen r = .ok .fwd) :
    ∃ w, toPrim (jsonGetD r "OrderID" (.str "")) = some w ∧ w ∉ seen ∧
      fulfillmentEligible r = true := by
  rcases h0 : toPrim (jsonGetD r "OrderID" (.str "")) with _ | w
  · rw [pollClassify, h0] at h
    simp at h
  · by_cases hw : w ∈ seen
    · rw [pollClassify, h0] at h
      simp [hw] at h
    · by_cases he : fulfillmentEligible r
      · exact ⟨w, h0 ▸ rfl, hw, he⟩
      · rw [pollClassify, h0] at h
        simp [hw, he] at h

theorem pollClassify_not_ineligible (seen : List PyVal) (r : OrderRec)
    (t : PollTag) (h : pollClassify seen r = .ok t)
    (he : fulfillmentEligible r = true) : t ≠ .notEligible := by
  rcases h0 : toPrim (jsonGetD r "OrderID" (.str "")) with _ | w
  · rw [pollClassify, h0] at h
    simp at h
  · rw [pollClassify, h0] at h
    by_cases hw : w ∈ seen
    · simp [hw] at h
      subst h
      simp
    · simp [hw, he] at h
      subst h
      simp

theorem jsonEqStr_eq (j : Json) (s : String) :
    jsonEqStr j s = true ↔ j = .str s := by
  cases j <;> simp [jsonEqStr]

theorem fulfillmentEligible_parts (r : OrderRec)
    (h : fulfillmentEligible r = true) :
    jsonGetD r "OrderStatus" (.str "") = .str "Completed" ∧
      truthyOpt (jsonGet r "ShippedTime") = false := by
  rw [fulfillmentEligible, Bool.and_eq_true] at h
  exact ⟨(jsonEqStr_eq _ _).mp h.1, by simpa using h.2⟩

/-! ### Claim theorems -/

/-- C3 counterexample: a state file whose content parses as the JSON array
`[]` is malformed (not the expected structured data), yet `load()` does not
return the empty set with a warning — `data.get("seen_order_ids", [])`
raises `AttributeError`, which the `except (json.JSONDecodeError, IOError)`
clause does not catch, so the error propagates to the caller. -/
theorem load_raises_on_json_array :
    load_seen_orders (.jsonVal (.arr [])) = .raised := by decide

/-- C3 (amended): `load()` returns the empty set when the backing file does
not exist, and returns the empty set and logs a warning when the file is
unreadable or its content is not parseable as JSON; however, content that
parses to JSON of the wrong shape (a non-object, or an object whose
`seen_order_ids` entry is not iterable or has unhashable elements) raises to
the caller. -/
theorem load_tolerates_missing_and_unparseable :
    load_seen_orders .missing = .ok [] false ∧
    load_seen_orders .unreadable = .ok [] true ∧
    load_seen_orders .notJson = .ok [] true := by decide

/-- C4: if `mark(id)` hits an I/O error while persisting (`persistOk =
false`), the save's error branch logs (flag `true`) but `mark` still returns
normally, and the in-memory insertion is not rolled back: `contains(id)`
stays true through any sequence of later marks, i.e. for the rest of the
process lifetime. -/
theorem mark_persist_failure_not_rolled_back (v : PyVal) (st : StoreState)
    (ms : List (Bool × PyVal)) :
    (mark_order_processed false v st).2 = true ∧
    is_order_seen v (runMarks ms (mark_order_processed false v st).1) = true := by
  refine ⟨rfl, ?_⟩
  rw [is_order_seen]
  simp only [decide_eq_true_eq]
  exact runMarks_seen_mono ms v _ (mark_mem_self false v st)

/-- C5: marking the same identifier twice leaves the in-memory Seen-Order
Set equal to marking it once (for any persistence outcomes), and when
persistence succeeds the whole store state — including the persisted file —
is equal as well. -/
theorem mark_idempotent (ok : Bool) (v : PyVal) (st : StoreState) :
    (mark_order_processed ok v (mark_order_processed ok v st).1).1.seen =
      (mark_order_processed ok v st).1.seen ∧
    (mark_order_processed true v (mark_order_processed true v st).1).1 =
      (mark_order_processed true v st).1 := by
  constructor
  · show pyInsert v (pyInsert v st.seen) = pyInsert v st.seen
    exact pyInsert_idem v st.seen
  · simp [mark_order_processed, save_seen_orders, pyInsert_idem]

/-- C6: after any nonempty sequence of identifiers written via `mark` with
persistence succeeding, re-loading the store from the backing file yields
exactly the in-memory Seen-Order Set (the store's in-memory list is
duplicate-free, as `load` and `add` maintain). -/
theorem seen_store_round_trip (st : StoreState) (ids : List String)
    (h1 : st.seen.Nodup) (h2 : ids ≠ []) :
    load_seen_orders (runMarksTrue ids st).file =
      .ok (runMarksTrue ids st).seen false := by
  rw [runMarksTrue_file ids st h2]
  exact load_encodeSeen _ (runMarksTrue_nodup ids st h1)

/-- Witness for C6 at the happy-path scenario: marking "A-1" into a fresh
store and re-loading the state file recovers the in-memory set. -/
theorem seen_store_round_trip_witness :
    (emptyStore.seen.Nodup ∧ (["A-1"] : List String) ≠ []) ∧
    load_seen_orders (runMarksTrue ["A-1"] emptyStore).file =
      .ok (runMarksTrue ["A-1"] emptyStore).seen false :=
  ⟨⟨by decide, by decide⟩,
    seen_store_round_trip emptyStore ["A-1"] (by decide) (by decide)⟩

/-- C8: a pass records exactly one outcome per offered candidate order, for
every behaviour of the collaborators — including oracles that raise
(`Except.error`) or fail on any one order — so no per-order error aborts the
pass or swallows another order's outcome. -/
theorem pass_records_all_outcomes (env : Env)
    (ts : List (OrderRec × PollTag)) (st : StoreState) :
    (runTagged env st ts).2.length = ts.length :=
  runTagged_length env ts st

/-- C9: every record returned by `poll_new_orders` has `OrderStatus` equal
to the string "Completed", a falsy (absent or empty) `ShippedTime`, and an
`OrderID` value (defaulting to "") that was not in the in-memory seen set at
poll time; an uninitialized API client or a handled API error yields the
empty list instead of an exception. -/
theorem poll_new_orders_postcondition (api : ApiResult) (seen : List PyVal)
    (lst : List OrderRec) (h : poll_new_orders api seen = .ok lst) :
    (api = .uninit → lst = []) ∧ (api = .handledError → lst = []) ∧
    ∀ r ∈ lst,
      jsonGetD r "OrderStatus" (.str "") = .str "Completed" ∧
      truthyOpt (jsonGet r "ShippedTime") = false ∧
      ∃ w, toPrim (jsonGetD r "OrderID" (.str "")) = some w ∧ w ∉ seen := by
  cases api with
  | uninit =>
    rw [poll_new_orders] at h
    simp at h
    subst h
    exact ⟨fun _ => rfl, fun _ => rfl, by simp⟩
  | handledError =>
    rw [poll_new_orders] at h
    simp at h
    subst h
    exact ⟨fun _ => rfl, fun _ => rfl, by simp⟩
  | response raws =>
    refine ⟨fun hh => by simp at hh, fun hh => by simp at hh, ?_⟩
    intro r hr
    rcases hp : pollTagged seen raws with e | ts
    · rw [poll_new_orders, hp] at h
      simp at h
    · rw [poll_new_orders, hp] at h
      simp at h
      subst h
      have hmem := (mem_forwarded r ts).mp hr
      have hc := pollTagged_mem_classify seen raws ts hp r .fwd hmem
      rcases pollClassify_fwd seen r hc with ⟨w, hw1, hw2, he⟩
      rcases fulfillmentEligible_parts r he with ⟨hs, hsh⟩
      exact ⟨hs, hsh, w, hw1, hw2⟩

/-- Witness for C9: polling a fresh store with one eligible extracted order
returns exactly that order, and the postcondition holds of it. -/
theorem poll_new_orders_postcondition_witness :
    poll_new_orders (.response [orderA]) [] = .ok [orderA] ∧
    ((ApiResult.response [orderA] = .uninit → [orderA] = ([] : List OrderRec)) ∧
     (ApiResult.response [orderA] = .handledError →
       [orderA] = ([] : List OrderRec)) ∧
     ∀ r ∈ [orderA],
       jsonGetD r "OrderStatus" (.str "") = .str "Completed" ∧
       truthyOpt (jsonGet r "ShippedTime") = false ∧
       ∃ w, toPrim (jsonGetD r "OrderID" (.str "")) = some w ∧
         w ∉ ([] : List PyVal)) :=
  ⟨rfl, poll_new_orders_postcondition (.response [orderA]) [] [orderA] rfl⟩

/-- C10: `generate_packing_slip` returns `None` for every record lacking the
`order_id` key or the `buyer_address` key, whatever the PDF builder would
do — in particular for marketplace-shaped records carrying `OrderID` and
`ShippingAddress` instead. -/
theorem packing_slip_requires_keys (build : OrderRec → Option String)
    (d : OrderRec)
    (h : hasKey d "order_id" = false ∨ hasKey d "buyer_address" = false) :
    generate_packing_slip build d = none := by
  rw [generate_packing_slip]
  have hv : validate_order_data d = false := by
    rw [validate_order_data]
    rcases h with h | h <;> simp [h]
  rw [hv]
  simp

/-- Witness for C10: a record with the marketplace keys `OrderID` and
`ShippingAddress` but no `order_id` key yields no packing slip even though
the PDF builder always succeeds. -/
theorem packing_slip_requires_keys_witness :
    (hasKey marketplaceShaped "order_id" = false ∨
      hasKey marketplaceShaped "buyer_address" = false) ∧
    generate_packing_slip alwaysBuild marketplaceShaped = none :=
  ⟨Or.inl (by decide),
    packing_slip_requires_keys alwaysBuild marketplaceShaped
      (Or.inl (by decide))⟩

/-- C2: for every order record whose pipeline fully succeeds in a pass
(outcome `processed`, which the orchestrator records exactly when the label
was bought, the slip generated and the Print Sink reported success), the
orchestrator called `mark` with the record's identifier (its `order_id`
value), so after the pass the identifier is in the in-memory Seen-Order Set
and — persistence succeeding — in the persisted state file. -/
theorem processed_order_marked (env : Env) (st0 : StoreState)
    (raws : List OrderRec) (i : ℕ) (r : OrderRec) (res : OrderResult)
    (hok : env.persistOk = true)
    (hr : raws[i]? = some r)
    (hres : (process_orders env st0 (.response raws)).2[i]? = some res)
    (hoc : res.outcome = .processed) :
    ∃ v, toPrim (jsonGetD r "order_id" (.str "unknown")) = some v ∧
      res.marked = some v ∧
      v ∈ (process_orders env st0 (.response raws)).1.seen ∧
      fileContainsId v (process_orders env st0 (.response raws)).1.file
        = true := by
  rcases hp : pollTagged st0.seen raws with e | ts
  · rw [process_orders, hp] at hres
    simp at hres
  · have heq := process_orders_response env st0 raws ts hp
    rw [heq] at hres ⊢
    rcases pollTagged_of_raw st0.seen raws ts i r hp hr with ⟨t, hts, _⟩
    rcases runTagged_get_processed env ts st0 i r t res hts hres hoc with
      ⟨_, v, hv, hm, hs, hf⟩
    exact ⟨v, hv, hm, hs, hf hok⟩

/-- Witness for C2 at the happy-path scenario: order "A-1" is processed, its
identifier is marked, and both set and state file contain it. -/
theorem processed_order_marked_witness :
    happyEnv.persistOk = true ∧
    ([orderA] : List OrderRec)[0]? = some orderA ∧
    (process_orders happyEnv emptyStore (.response [orderA])).2[0]? =
      some happyRes ∧
    happyRes.outcome = .processed ∧
    ∃ v, toPrim (jsonGetD orderA "order_id" (.str "unknown")) = some v ∧
      happyRes.marked = some v ∧
      v ∈ (process_orders happyEnv emptyStore (.response [orderA])).1.seen ∧
      fileContainsId v
        (process_orders happyEnv emptyStore (.response [orderA])).1.file
        = true :=
  ⟨rfl, rfl, rfl, rfl,
    processed_order_marked happyEnv emptyStore [orderA] 0 orderA happyRes
      rfl rfl rfl rfl⟩

/-- C7 counterexample: in one pass, two distinct candidate records share the
identifier value "X".  The first record's label purchase and slip rendering
succeed but its print fails (outcome `failedPrint`, no mark for it), the
second completes the pipeline, so "X" is in the Seen-Order Set after the
pass although it was absent before — refuting "that order's identifier is
absent from the Seen-Order Set after the pass (assuming it was absent
before)". -/
theorem print_failure_dup_id_cex :
    (process_orders dupEnv emptyStore
        (.response [printFailOrder, dupOrder])).2[0]? =
      some ⟨.failedPrint, true, none⟩ ∧
    toPrim (jsonGetD printFailOrder "order_id" (.str "unknown")) =
      some (.str "X") ∧
    (PyVal.str "X") ∉ emptyStore.seen ∧
    (PyVal.str "X") ∈ (process_orders dupEnv emptyStore
        (.response [printFailOrder, dupOrder])).1.seen := by
  decide

/-- C7 (amended): for every order of a pass whose label and slip succeeded
but whose print reported failure (outcome `failedPrint`), `mark` is not
called for that order; and its identifier is absent from the Seen-Order Set
after the pass provided it was absent before and no candidate of the pass
was marked with that same identifier value. -/
theorem no_mark_on_print_failure (env : Env) (st0 : StoreState)
    (raws : List OrderRec) (i : ℕ) (res : OrderResult)
    (hres : (process_orders env st0 (.response raws)).2[i]? = some res)
    (hoc : res.outcome = .failedPrint) :
    res.marked = none ∧
    ∀ v : PyVal, v ∉ st0.seen →
      (∀ (j : ℕ) (x : OrderResult),
        (process_orders env st0 (.response raws)).2[j]? = some x →
        x.marked ≠ some v) →
      v ∉ (process_orders env st0 (.response raws)).1.seen := by
  rcases hp : pollTagged st0.seen raws with e | ts
  · rw [process_orders, hp] at hres
    simp at hres
  · have heq := process_orders_response env st0 raws ts hp
    rw [heq] at hres ⊢
    constructor
    · exact runTagged_marked_none env ts st0 i res hres
        (by rw [hoc]; decide)
    · intro v hv0 hnm hvfin
      rcases runTagged_growth env ts st0 v hvfin with h | ⟨j, x, hj, hm⟩
      · exact hv0 h
      · exact hnm j x hj hm

/-- Witness for C7 (amended): a single candidate whose print fails is not
marked and its identifier stays out of the Seen-Order Set. -/
theorem no_mark_on_print_failure_witness :
    (process_orders printFailEnv emptyStore
        (.response [printFailOrder])).2[0]? =
      some ⟨.failedPrint, true, none⟩ ∧
    ((⟨.failedPrint, true, none⟩ : OrderResult).outcome = .failedPrint) ∧
    ((⟨.failedPrint, true, none⟩ : OrderResult).marked = none ∧
     ∀ v : PyVal, v ∉ emptyStore.seen →
       (∀ (j : ℕ) (x : OrderResult),
         (process_orders printFailEnv emptyStore
             (.response [printFailOrder])).2[j]? = some x →
         x.marked ≠ some v) →
       v ∉ (process_orders printFailEnv emptyStore
           (.response [printFailOrder])).1.seen) :=
  ⟨rfl, rfl,
    no_mark_on_print_failure printFailEnv emptyStore [printFailOrder] 0
      ⟨.failedPrint, true, none⟩ rfl rfl⟩

/-- C1: if a pass processed record `r` to completion (outcome `processed`),
then in a subsequent pass in which the Order Source again returns `r` — and
whose poll completes, classifying the offers as `ts2` — the Label Acquirer
is never invoked for `r` and every offer of `r` records outcome
`skipped-already-seen` (at the poll-stage dedup drop or the loop-stage
skip). -/
theorem second_pass_skips_processed (env1 env2 : Env) (st0 : StoreState)
    (raws1 raws2 : List OrderRec) (r : OrderRec) (i : ℕ) (res1 : OrderResult)
    (ts2 : List (OrderRec × PollTag))
    (h1r : raws1[i]? = some r)
    (h1 : (process_orders env1 st0 (.response raws1)).2[i]? = some res1)
    (h1p : res1.outcome = .processed)
    (h2 : pollTagged (process_orders env1 st0 (.response raws1)).1.seen raws2
      = .ok ts2) :
    (∀ j : ℕ, raws2[j]? = some r →
      (process_orders env2 (process_orders env1 st0 (.response raws1)).1
          (.response raws2)).2[j]? =
        some ⟨.skippedAlreadySeen, false, none⟩) ∧
    r ∉ labelCalls raws2
      (process_orders env2 (process_orders env1 st0 (.response raws1)).1
        (.response raws2)).2 := by
  rcases hp1 : pollTagged st0.seen raws1 with e | ts1
  · rw [process_orders, hp1] at h1
    simp at h1
  · have heq1 := process_orders_response env1 st0 raws1 ts1 hp1
    rw [heq1] at h1 h2 ⊢
    rcases pollTagged_of_raw st0.seen raws1 ts1 i r hp1 h1r with
      ⟨t1, hts1, hc1⟩
    rcases runTagged_get_processed env1 ts1 st0 i r t1 res1 hts1 h1 h1p with
      ⟨ht1f, v, hv, _, hvseen, _⟩
    subst ht1f
    rcases pollClassify_fwd st0.seen r hc1 with ⟨_, _, _, helig⟩
    have heq2 := process_orders_response env2 (runTagged env1 st0 ts1).1
      raws2 ts2 h2
    rw [heq2]
    constructor
    · intro j hj
      rcases pollTagged_of_raw _ raws2 ts2 j r h2 hj with ⟨t2, hts2, hc2⟩
      have ht2 := pollClassify_not_ineligible _ r t2 hc2 helig
      exact runTagged_get_skip env2 ts2 _ j r t2 v hv hvseen hts2 ht2
    · apply not_mem_labelCalls
      intro j x hj hx
      rcases pollTagged_of_raw _ raws2 ts2 j r h2 hj with ⟨t2, hts2, hc2⟩
      have ht2 := pollClassify_not_ineligible _ r t2 hc2 helig
      have hsk := runTagged_get_skip env2 ts2 _ j r t2 v hv hvseen hts2 ht2
      rw [hsk] at hx
      simp at hx
      rw [← hx]

/-- Witness for C1: the happy-path pass processes "A-1"; a second pass whose
source again returns the same record classifies it as a seen-skip, records
`skipped-already-seen`, and never calls the Label Acquirer for it. -/
theorem second_pass_skips_processed_witness :
    ([orderA] : List OrderRec)[0]? = some orderA ∧
    (process_orders happyEnv emptyStore (.response [orderA])).2[0]? =
      some happyRes ∧
    happyRes.outcome = .processed ∧
    pollTagged (process_orders happyEnv emptyStore
        (.response [orderA])).1.seen [orderA] =
      .ok [(orderA, .seenSkip)] ∧
    ((∀ j : ℕ, ([orderA] : List OrderRec)[j]? = some orderA →
      (process_orders happyEnv
          (process_orders happyEnv emptyStore (.response [orderA])).1
          (.response [orderA])).2[j]? =
        some ⟨.skippedAlreadySeen, false, none⟩) ∧
     orderA ∉ labelCalls [orderA]
       (process_orders happyEnv
          (process_orders happyEnv emptyStore (.response [orderA])).1
          (.response [orderA])).2) :=
  ⟨rfl, rfl, rfl, rfl,
    second_pass_skips_processed happyEnv happyEnv emptyStore [orderA]
      [orderA] orderA 0 happyRes [(orderA, .seenSkip)] rfl rfl rfl rfl⟩

end EbayPrinter
